import Mathlib

/-!
Verification of the ptghci client engine module (`pybits/ptghci/engine.py`).

The development shallowly embeds the pure logic of the module:

* `StreamEchoThread` — the state of the stream-listener thread
  (`last_sync_seq`, `interrupted`) together with its message-processing
  step (`StreamEchoThread.step`, from the body of `run`), its polling wait
  (`StreamEchoThread.await_sync`) and its `interrupt` method.
* `syncMatch` — the anchored match of the regular expression
  `\d #~PTGHCI~SYNC~(\d+)~#` (`SYNC_RE`) against a message, returning the
  captured sequence number.
* `responseFromReply` — `_response_from_reply`, mapping a reply record to a
  `Response` or raising `ValueError`.
* `await_reply`, `execute`, `exec_stream`, `get_completions` — the
  command-client methods of `Engine`, modelled over an explicit trace of
  polling events (message arrival, poll timeout, `KeyboardInterrupt`).
  Replies are dict-like records with optional fields; a missing field reads
  as a `KeyError`.
-/

/-- One line of routed output: line printed to stdout or to stderr. -/
inductive Output
  | primary (text : String)
  | errOut (text : String)
deriving DecidableEq, Repr

/-- State of the stream-listener thread: the highest sync sequence number
observed (initially `-1`) and the suppression flag. -/
structure StreamEchoThread where
  last_sync_seq : Int
  interrupted : Bool
deriving DecidableEq, Repr

/-- `dropLit pat s` strips the literal character sequence `pat` from the
front of `s`, returning the remainder, or `none` if `pat` is not a prefix
of `s`. -/
def dropLit : List Char → List Char → Option (List Char)
  | [], s => some s
  | _ :: _, [] => none
  | p :: ps, c :: cs => if p = c then dropLit ps cs else none

/-- Longest run of decimal digits at the front of a character list,
together with the remainder (the greedy semantics of `\d+`). -/
def spanDigits : List Char → List Char × List Char
  | [] => ([], [])
  | c :: cs =>
    if c.isDigit then (c :: (spanDigits cs).1, (spanDigits cs).2)
    else ([], c :: cs)

/-- Numeric value of a list of decimal digit characters, as Python
`int(...)` computes it for the captured group. -/
def digitsToNat (ds : List Char) : Nat :=
  ds.foldl (fun acc c => acc * 10 + (c.toNat - 48)) 0

/-- The character-level match of `SYNC_RE`, the regular expression
`\d #~PTGHCI~SYNC~(\d+)~#`, anchored at the start of the message (trailing
text is allowed, as with `re.match`); returns the captured sequence
number. -/
def syncParse : List Char → Option Nat
  | [] => none
  | d :: rest =>
    if d.isDigit then
      match dropLit " #~PTGHCI~SYNC~".toList rest with
      | none => none
      | some r1 =>
        if (spanDigits r1).1.isEmpty then none
        else
          match dropLit "~#".toList (spanDigits r1).2 with
          | none => none
          | some _ => some (digitsToNat (spanDigits r1).1)
    else none

/-- `SYNC_RE.match(message)` from the source, on a message string. -/
def syncMatch (msg : String) : Option Nat :=
  syncParse msg.toList

/-- Modelled from the spec: the marker pattern as the spec states it,
`<digit> #~SYNC~<n>~#` (the repository code uses a different literal).
Used only to compare the spec wording with the source behaviour. -/
def syncPatternFromSpec (msg : String) : Option Nat :=
  match msg.toList with
  | [] => none
  | d :: rest =>
    if d.isDigit then
      match dropLit " #~SYNC~".toList rest with
      | none => none
      | some r1 =>
        if (spanDigits r1).1.isEmpty then none
        else
          match dropLit "~#".toList (spanDigits r1).2 with
          | none => none
          | some _ => some (digitsToNat (spanDigits r1).1)
    else none

/-- One iteration of the listener loop (`StreamEchoThread.run`) on a
received message: a sync marker sets the cursor to the captured number
(unconditionally) and clears the suppression flag; otherwise, when not
suppressed, the line is routed by its first character (`1` to stdout,
`2` to stderr; anything else raises `ValueError`, and an empty message
raises `IndexError`); when suppressed the line is dropped. -/
def StreamEchoThread.step (st : StreamEchoThread) (message : String) :
    Except String (StreamEchoThread × List Output) :=
  match syncMatch message with
  | some n => .ok ({ last_sync_seq := (n : Int), interrupted := false }, [])
  | none =>
    if st.interrupted then
      .ok (st, [])
    else
      match message.toList with
      | [] => .error "IndexError"
      | c :: _ =>
        let contents := String.mk (message.toList.drop 2)
        if c = '1' then .ok (st, [Output.primary contents])
        else if c = '2' then .ok (st, [Output.errOut contents])
        else
          .error ("Bad stream identifier.  Expected 1 or 2 but got "
                  ++ String.mk [c])

/-- The listener loop over a list of received messages, threading the state
and concatenating the routed output in arrival order; the first raised
error stops the loop (the thread dies). -/
def StreamEchoThread.run (st : StreamEchoThread) :
    List String → Except String (StreamEchoThread × List Output)
  | [] => .ok (st, [])
  | m :: ms =>
    match st.step m with
    | .error e => .error e
    | .ok (st1, out1) =>
      match st1.run ms with
      | .error e => .error e
      | .ok (st2, out2) => .ok (st2, out1 ++ out2)

/-- The cursor value after each processed message (stopping at the first
error), used to observe the cursor progression. -/
def StreamEchoThread.cursorTrace (st : StreamEchoThread) :
    List String → List Int
  | [] => []
  | m :: ms =>
    match st.step m with
    | .error _ => []
    | .ok (st1, _) => st1.last_sync_seq :: st1.cursorTrace ms

/-- `StreamEchoThread.interrupt`: set the suppression flag. -/
def StreamEchoThread.interrupt (st : StreamEchoThread) : StreamEchoThread :=
  { st with interrupted := true }

/-- `StreamEchoThread.await_sync sync_seq obs`: the polling wait, observing
the successive values `obs` of `last_sync_seq` at its re-checks; it returns
at the first observation satisfying `last_sync_seq >= sync_seq`, yielding
that cursor value, and `none` if no observation ever satisfies it (the
loop keeps polling). -/
def StreamEchoThread.await_sync (sync_seq : Int) : List Int → Option Int
  | [] => none
  | v :: rest => if sync_seq ≤ v then some v else StreamEchoThread.await_sync sync_seq rest

/-- Initial listener state, as built by `__init__`. -/
def initListener : StreamEchoThread := { last_sync_seq := -1, interrupted := false }

/-- The caller-facing result type (`Response` from `response.py`, consumed
not owned): `Value(content)`, `ErrorMessage(text)` or the `Stream`
sentinel. -/
inductive Response
  | value (content : String)
  | errorMessage (text : String)
  | stream
deriving DecidableEq, Repr

/-- A reply record received on the command channel, as a dict with
optional fields; a field that is `none` is absent from the dict and
reading it raises `KeyError`. -/
structure Reply where
  tag : String
  success : Option Bool := none
  content : Option String := none
  syncVal : Option Int := none
  startChars : Option Int := none
  candidates : Option (List String) := none
deriving DecidableEq, Repr

/-- `_response_from_reply`: map a reply record to a `Response`; an
unrecognized tag raises `ValueError`, a missing field raises `KeyError`. -/
def responseFromReply (reply : Reply) : Except String Response :=
  if reply.tag = "ExecCaptureResponse" then
    match reply.success with
    | none => .error "KeyError: success"
    | some true =>
      match reply.content with
      | none => .error "KeyError: content"
      | some c => .ok (Response.value c)
    | some false =>
      match reply.content with
      | none => .error "KeyError: content"
      | some c => .ok (Response.errorMessage c)
  else if reply.tag = "ExecStreamResponse" then
    match reply.success with
    | none => .error "KeyError: success"
    | some true => .ok Response.stream
    | some false =>
      match reply.content with
      | none => .error "KeyError: content"
      | some c => .ok (Response.errorMessage c)
  else .error ("Unexpected response type: " ++ reply.tag)

/-- An event observed by `_await_reply` while polling the command socket:
a reply message becomes readable, the poll times out, or a
`KeyboardInterrupt` is raised in the polling thread. -/
inductive Ev
  | msg (m : Reply)
  | timeout
  | cancel
deriving DecidableEq, Repr

/-- A side effect on the engine: `send_interrupt` sends `Interrupt` on the
control socket (`ctrlInterrupt`) and sets the listener suppression flag
(`suppress`). -/
inductive Act
  | ctrlInterrupt
  | suppress
deriving DecidableEq, Repr

/-- The two actions performed by one `send_interrupt` call, repeated `k`
times. -/
def interruptActs : Nat → List Act
  | 0 => []
  | k + 1 => Act.ctrlInterrupt :: Act.suppress :: interruptActs k

/-- How `_await_reply` terminates: with a decoded reply, or by re-raising
the original `KeyboardInterrupt` after draining the acknowledgment. -/
inductive ReplyOutcome
  | reply (m : Reply)
  | cancelled
deriving DecidableEq, Repr

/-- The inner loop of `_await_reply` after a `KeyboardInterrupt`: keep
polling until the confirmation reply is received (discarding it); each
further `KeyboardInterrupt` re-sends the interrupt. Returns the actions
performed and whether the acknowledgment was drained within the trace. -/
def drainAck : List Ev → List Act × Bool
  | [] => ([], false)
  | Ev.msg _ :: _ => ([], true)
  | Ev.timeout :: rest => drainAck rest
  | Ev.cancel :: rest =>
    (Act.ctrlInterrupt :: Act.suppress :: (drainAck rest).1, (drainAck rest).2)

/-- `Engine._await_reply` over a trace of polling events: an arriving
message is decoded and returned; a `KeyboardInterrupt` triggers
`send_interrupt`, the drain of the acknowledgment reply, and the re-raise
of the original interrupt. `none` means the trace ended with the loop
still polling. -/
def await_reply : List Ev → List Act × Option ReplyOutcome
  | [] => ([], none)
  | Ev.msg m :: _ => ([], some (ReplyOutcome.reply m))
  | Ev.timeout :: rest => await_reply rest
  | Ev.cancel :: rest =>
    (Act.ctrlInterrupt :: Act.suppress :: (drainAck rest).1,
     if (drainAck rest).2 then some ReplyOutcome.cancelled else none)

/-- How an `Engine` command method terminates: a returned `Response`, a
raised protocol error (`ValueError` / `KeyError`), or a re-raised
`KeyboardInterrupt`. -/
inductive ExecOutcome
  | result (r : Response)
  | protocolError (e : String)
  | cancelled
deriving DecidableEq, Repr

/-- `Engine.execute` after the request has been sent: await the reply and
map it through `_response_from_reply`; a `KeyboardInterrupt` escaping the
wait triggers one more `send_interrupt` before being re-raised. -/
def Engine.execute (events : List Ev) : List Act × Option ExecOutcome :=
  match await_reply events with
  | (acts, none) => (acts, none)
  | (acts, some (ReplyOutcome.reply m)) =>
    match responseFromReply m with
    | .ok r => (acts, some (ExecOutcome.result r))
    | .error e => (acts, some (ExecOutcome.protocolError e))
  | (acts, some ReplyOutcome.cancelled) =>
    (acts ++ [Act.ctrlInterrupt, Act.suppress], some ExecOutcome.cancelled)

/-- Whether the `await_sync` call inside `exec_stream` ran to completion
or was cut short by a `KeyboardInterrupt`. -/
inductive WaitOutcome
  | completed
  | interrupted
deriving DecidableEq, Repr

/-- `Engine.exec_stream` after the request has been sent: await the reply;
on `success` wait for the sync marker (`await_sync(syncVal)`), sending an
interrupt if that wait is cancelled, and in either case return
`_response_from_reply` of the reply already received; on failure skip the
wait. The middle component records the sync target passed to `await_sync`
(`none` when `await_sync` was never called). -/
def Engine.exec_stream (events : List Ev) (w : WaitOutcome) :
    List Act × Option Int × Option ExecOutcome :=
  match await_reply events with
  | (acts, none) => (acts, none, none)
  | (acts, some ReplyOutcome.cancelled) =>
    (acts, none, some ExecOutcome.cancelled)
  | (acts, some (ReplyOutcome.reply m)) =>
    match m.success with
    | none => (acts, none, some (ExecOutcome.protocolError "KeyError: success"))
    | some true =>
      match m.syncVal with
      | none => (acts, none, some (ExecOutcome.protocolError "KeyError: syncVal"))
      | some sv =>
        let iacts := match w with
          | WaitOutcome.completed => []
          | WaitOutcome.interrupted => [Act.ctrlInterrupt, Act.suppress]
        (acts ++ iacts, some sv,
         some (match responseFromReply m with
               | .ok r => ExecOutcome.result r
               | .error e => ExecOutcome.protocolError e))
    | some false =>
      (acts, none,
       some (match responseFromReply m with
             | .ok r => ExecOutcome.result r
             | .error e => ExecOutcome.protocolError e))

/-- `Engine.get_completions` applied to the received reply: when
`reply.get(success)` is truthy, return `(startChars, candidates)`
(`KeyError` when a field is absent); otherwise return `None`. -/
def Engine.get_completions (reply : Reply) :
    Except String (Option (Int × List String)) :=
  match reply.success with
  | some true =>
    match reply.startChars with
    | none => .error "KeyError: startChars"
    | some sc =>
      match reply.candidates with
      | none => .error "KeyError: candidates"
      | some cs => .ok (some (sc, cs))
  | _ => .ok none

/-- Number of `KeyboardInterrupt` events in a trace segment. -/
def countCancels : List Ev → Nat
  | [] => 0
  | Ev.cancel :: rest => countCancels rest + 1
  | _ :: rest => countCancels rest

/-- Example reply: successful `ExecStreamResponse` carrying a sync token. -/
def sampleStreamOk : Reply :=
  { tag := "ExecStreamResponse", success := some true, syncVal := some 7 }

/-- Example reply: failed `ExecStreamResponse` carrying an error text. -/
def sampleStreamFail : Reply :=
  { tag := "ExecStreamResponse", success := some false, content := some "boom" }

/-- Example reply: successful `ExecCaptureResponse` with captured output. -/
def sampleCaptureOk : Reply :=
  { tag := "ExecCaptureResponse", success := some true, content := some "2" }

/-- Example reply: failed `ExecCaptureResponse` with an error message. -/
def sampleCaptureFail : Reply :=
  { tag := "ExecCaptureResponse", success := some false, content := some "parse error" }

/-- Example reply with an unrecognized discriminant tag. -/
def sampleBadTag : Reply := { tag := "Bogus" }

/-- Example completion reply with prefix length and candidates. -/
def sampleCompletion : Reply :=
  { tag := "CompletionResponse", success := some true, startChars := some 3,
    candidates := some ["bar", "baz"] }

/-- Example reply standing for the interrupt acknowledgment drained by
`_await_reply` after a cancellation. -/
def sampleAck : Reply :=
  { tag := "ExecCaptureResponse", success := some false, content := some "interrupted" }

/-! ### Helper lemmas -/

theorem drainAck_msg :
    ∀ (t : List Ev) (m : Reply) (rest : List Ev),
      (∀ e ∈ t, e = Ev.timeout ∨ e = Ev.cancel) →
      drainAck (t ++ Ev.msg m :: rest) = (interruptActs (countCancels t), true) := by
  intro t
  induction t with
  | nil =>
    intro m rest _
    rfl
  | cons e t ih =>
    intro m rest h
    have he : e = Ev.timeout ∨ e = Ev.cancel := h e (List.mem_cons_self e t)
    have ht : ∀ x ∈ t, x = Ev.timeout ∨ x = Ev.cancel :=
      fun x hx => h x (List.mem_cons_of_mem e hx)
    rcases he with he | he
    · subst he
      simp only [List.cons_append, List.append_eq, drainAck, countCancels, ih m rest ht]
    · subst he
      simp only [List.cons_append, List.append_eq, drainAck, countCancels, ih m rest ht,
        interruptActs]

theorem await_reply_skip_timeouts :
    ∀ (t rest : List Ev), (∀ e ∈ t, e = Ev.timeout) →
      await_reply (t ++ rest) = await_reply rest := by
  intro t
  induction t with
  | nil => intro rest _; rfl
  | cons e t ih =>
    intro rest h
    have he : e = Ev.timeout := h e (List.mem_cons_self e t)
    subst he
    have ht : ∀ x ∈ t, x = Ev.timeout := fun x hx => h x (List.mem_cons_of_mem _ hx)
    simp only [List.cons_append, List.append_eq, await_reply, ih rest ht]

theorem run_interrupted_drops :
    ∀ (msgs : List String) (st : StreamEchoThread),
      (∀ m ∈ msgs, syncMatch m = none) →
      st.interrupt.run msgs = .ok (st.interrupt, []) := by
  intro msgs
  induction msgs with
  | nil => intro st _; rfl
  | cons m ms ih =>
    intro st h
    have hm : syncMatch m = none := h m (List.mem_cons_self m ms)
    have hms : ∀ x ∈ ms, syncMatch x = none :=
      fun x hx => h x (List.mem_cons_of_mem m hx)
    have hstep : st.interrupt.step m = .ok (st.interrupt, []) := by
      simp [StreamEchoThread.step, StreamEchoThread.interrupt, hm]
    simp [StreamEchoThread.run, hstep, ih st hms]

theorem dropLit_eq_some_iff :
    ∀ (p s r : List Char), dropLit p s = some r ↔ s = p ++ r := by
  intro p
  induction p with
  | nil =>
    intro s r
    simp [dropLit]
  | cons x xs ih =>
    intro s r
    cases s with
    | nil => simp [dropLit]
    | cons c cs =>
      simp only [dropLit, List.cons_append, List.cons.injEq]
      by_cases hx : x = c
      · subst hx
        simp [ih]
      · rw [if_neg hx]
        constructor
        · intro h; exact Option.noConfusion h
        · intro h
          exact absurd h.1.symm hx

theorem spanDigits_eq :
    ∀ (l a b : List Char), spanDigits l = (a, b) →
      l = a ++ b ∧ ∀ c ∈ a, c.isDigit = true := by
  intro l
  induction l with
  | nil =>
    intro a b h
    simp only [spanDigits, Prod.mk.injEq] at h
    obtain ⟨ha, hb⟩ := h
    subst ha; subst hb
    simp
  | cons c cs ih =>
    intro a b h
    simp only [spanDigits] at h
    by_cases hc : c.isDigit
    · rw [if_pos hc] at h
      obtain ⟨ha, hb⟩ := Prod.mk.injEq .. ▸ h
      obtain ⟨h1, h2⟩ := ih (spanDigits cs).1 (spanDigits cs).2 rfl
      subst ha; subst hb
      constructor
      · simpa using h1
      · intro d hd
        rcases List.mem_cons.mp hd with h | h
        · subst h; exact hc
        · exact h2 d h
    · rw [if_neg hc] at h
      obtain ⟨ha, hb⟩ := Prod.mk.injEq .. ▸ h
      subst ha; subst hb
      simp

theorem spanDigits_of_digits :
    ∀ (ds r : List Char), (∀ c ∈ ds, c.isDigit = true) →
      spanDigits (ds ++ '~' :: r) = (ds, '~' :: r) := by
  intro ds
  induction ds with
  | nil =>
    intro r _
    simp [spanDigits]
  | cons c cs ih =>
    intro r h
    have hc : c.isDigit = true := h c (List.mem_cons_self c cs)
    have hcs : ∀ d ∈ cs, d.isDigit = true := fun d hd => h d (List.mem_cons_of_mem c hd)
    simp [spanDigits, hc, ih r hcs]

theorem await_sync_ge :
    ∀ (target : Int) (obs : List Int) (v : Int),
      StreamEchoThread.await_sync target obs = some v → target ≤ v := by
  intro target obs
  induction obs with
  | nil => intro v h; simp [StreamEchoThread.await_sync] at h
  | cons x xs ih =>
    intro v h
    simp only [StreamEchoThread.await_sync] at h
    by_cases hx : target ≤ x
    · rw [if_pos hx] at h
      cases h
      exact hx
    · rw [if_neg hx] at h
      exact ih v h

theorem syncParse_eq_some_iff :
    ∀ (l : List Char) (n : Nat),
      syncParse l = some n ↔
      ∃ d ds rest,
        l = d :: (" #~PTGHCI~SYNC~".toList ++ (ds ++ '~' :: '#' :: rest))
        ∧ d.isDigit = true ∧ ds ≠ [] ∧ (∀ c ∈ ds, c.isDigit = true)
        ∧ n = digitsToNat ds := by
  intro l n
  constructor
  · intro h
    cases l with
    | nil => exact Option.noConfusion h
    | cons d rest =>
      simp only [syncParse] at h
      by_cases hd : d.isDigit
      · rw [if_pos hd] at h
        split at h
        · exact Option.noConfusion h
        · rename_i r1 hdrop
          split at h
          · exact Option.noConfusion h
          · rename_i hempty
            split at h
            · exact Option.noConfusion h
            · rename_i r3 htail
              rcases hsd : spanDigits r1 with ⟨a, b⟩
              rw [hsd] at h htail hempty
              have hn : n = digitsToNat a := by
                cases h; rfl
              have hrest : rest = " #~PTGHCI~SYNC~".toList ++ r1 :=
                (dropLit_eq_some_iff _ _ _).mp hdrop
              obtain ⟨hsplit, hdig⟩ := spanDigits_eq r1 a b hsd
              have htail2 : b = "~#".toList ++ r3 :=
                (dropLit_eq_some_iff _ _ _).mp htail
              refine ⟨d, a, r3, ?_, hd, ?_, hdig, hn⟩
              · rw [hrest, hsplit, htail2]
                simp
              · intro hnil
                rw [hnil] at hempty
                exact hempty rfl
      · rw [if_neg hd] at h
        exact Option.noConfusion h
  · rintro ⟨d, ds, rest, hl, hd, hne, hdig, hn⟩
    subst hl
    subst hn
    have h1 : dropLit " #~PTGHCI~SYNC~".toList
        (" #~PTGHCI~SYNC~".toList ++ (ds ++ '~' :: '#' :: rest))
        = some (ds ++ '~' :: '#' :: rest) :=
      (dropLit_eq_some_iff _ _ _).mpr rfl
    have h2 : spanDigits (ds ++ '~' :: '#' :: rest) = (ds, '~' :: '#' :: rest) :=
      spanDigits_of_digits ds ('#' :: rest) hdig
    have h3 : dropLit ['~', '#'] ('~' :: '#' :: rest) = some rest :=
      (dropLit_eq_some_iff _ _ _).mpr rfl
    have h4 : ds.isEmpty = false := by
      cases ds with
      | nil => exact absurd rfl hne
      | cons a as => rfl
    simp only [syncParse]
    rw [if_pos hd]
    split
    · rename_i hdrop
      rw [h1] at hdrop
      exact Option.noConfusion hdrop
    · rename_i r1 hdrop
      rw [h1] at hdrop
      injection hdrop with h5
      subst h5
      rw [h2]
      simp [h3, h4]

theorem step_of_syncMatch :
    ∀ (st : StreamEchoThread) (msg : String) (n : Nat),
      syncMatch msg = some n →
      st.step msg = .ok ({ last_sync_seq := (n : Int), interrupted := false }, []) := by
  intro st msg n h
  simp only [StreamEchoThread.step, h]

/-! ### Claims about the Stream Listener -/

/-- C2 (counterexample): feeding markers with sequence numbers
`[3, 5, 4, 7]` to the listener yields the cursor progression `[3, 5, 4, 7]`,
not `[3, 5, 5, 7]`; a marker whose sequence number is below the current
cursor is applied, regressing the cursor from 5 to 4. -/
theorem cursor_regression_counterexample :
    StreamEchoThread.cursorTrace initListener
        ["1 #~PTGHCI~SYNC~3~#", "1 #~PTGHCI~SYNC~5~#",
         "1 #~PTGHCI~SYNC~4~#", "1 #~PTGHCI~SYNC~7~#"]
      = [3, 5, 4, 7]
    ∧ ([3, 5, 4, 7] : List Int) ≠ [3, 5, 5, 7]
    ∧ StreamEchoThread.step { last_sync_seq := 5, interrupted := false }
        "1 #~PTGHCI~SYNC~4~#"
      = .ok ({ last_sync_seq := 4, interrupted := false }, []) :=
  ⟨by rfl, by decide, by rfl⟩

/-- C2 (amended): the listener sets the cursor to the sequence number of
each received marker unconditionally — non-increasing markers are not rejected —
so feeding markers `[3, 5, 4, 7]` yields cursor progression `[3, 5, 4, 7]`;
the cursor is non-decreasing only when the markers arrive with
non-decreasing sequence numbers. -/
theorem cursor_follows_markers :
    (∀ (st : StreamEchoThread) (msg : String) (n : Nat),
       syncMatch msg = some n →
       st.step msg = .ok ({ last_sync_seq := (n : Int), interrupted := false }, []))
    ∧ StreamEchoThread.cursorTrace initListener
        ["1 #~PTGHCI~SYNC~3~#", "1 #~PTGHCI~SYNC~5~#",
         "1 #~PTGHCI~SYNC~4~#", "1 #~PTGHCI~SYNC~7~#"]
      = [3, 5, 4, 7] :=
  ⟨step_of_syncMatch, by rfl⟩

/-- Witness for the amended C2 theorem at a concrete marker. -/
theorem cursor_follows_markers_witness :
    StreamEchoThread.step initListener "1 #~PTGHCI~SYNC~5~#"
      = .ok ({ last_sync_seq := 5, interrupted := false }, []) :=
  cursor_follows_markers.1 initListener "1 #~PTGHCI~SYNC~5~#" 5 (by rfl)

/-- C3: `interrupt()` sets the suppression flag idempotently; while the
flag is set every content line (non-marker message) is dropped without
being routed to any sink; and any marker — regardless of its sequence
number — clears the flag. -/
theorem interrupt_suppression :
    (∀ st : StreamEchoThread, st.interrupt.interrupt = st.interrupt)
    ∧ (∀ (st : StreamEchoThread) (msgs : List String),
        (∀ m ∈ msgs, syncMatch m = none) →
        st.interrupt.run msgs = .ok (st.interrupt, []))
    ∧ (∀ (st : StreamEchoThread) (msg : String) (n : Nat),
        syncMatch msg = some n →
        st.step msg = .ok ({ last_sync_seq := (n : Int), interrupted := false }, [])) := by
  refine ⟨fun st => rfl, ?_, step_of_syncMatch⟩
  intro st msgs h
  exact run_interrupted_drops msgs st h

/-- Witness for C3: an interrupted listener drops two content lines, and a
marker with a sequence number far below the cursor still clears the flag. -/
theorem interrupt_suppression_witness :
    initListener.interrupt.interrupt = initListener.interrupt
    ∧ initListener.interrupt.run ["1:dropped", "2:also dropped"]
      = .ok (initListener.interrupt, [])
    ∧ StreamEchoThread.step { last_sync_seq := 10, interrupted := true }
        "1 #~PTGHCI~SYNC~2~#"
      = .ok ({ last_sync_seq := 2, interrupted := false }, []) :=
  ⟨interrupt_suppression.1 initListener,
   interrupt_suppression.2.1 initListener ["1:dropped", "2:also dropped"] (by decide),
   interrupt_suppression.2.2 { last_sync_seq := 10, interrupted := true }
     "1 #~PTGHCI~SYNC~2~#" 2 (by rfl)⟩

/-- C4 (counterexample): the message `1 #~SYNC~5~#` matches the pattern the
spec states (`<digit> #~SYNC~<n>~#`) but the listener does not treat it as
a marker — it routes it as a content line with selector 1. -/
theorem sync_marker_pattern_counterexample :
    syncPatternFromSpec "1 #~SYNC~5~#" = some 5
    ∧ syncMatch "1 #~SYNC~5~#" = none
    ∧ StreamEchoThread.step initListener "1 #~SYNC~5~#"
      = .ok (initListener, [Output.primary "#~SYNC~5~#"]) :=
  ⟨by rfl, by rfl, by rfl⟩

/-- C4 (amended): the listener treats a stream message as a synchronization
marker exactly when it starts with `<digit> #~PTGHCI~SYNC~<n>~#` (`n` a
non-empty run of decimal digits; trailing text allowed, as `re.match`
anchors only at the start), and in that case it sets the cursor to `n` and
clears the suppression flag, waking the `await_sync` waiters. -/
theorem sync_marker_pattern :
    (∀ (msg : String) (n : Nat),
       syncMatch msg = some n ↔
       ∃ d ds rest,
         msg.toList = d :: (" #~PTGHCI~SYNC~".toList ++ (ds ++ '~' :: '#' :: rest))
         ∧ d.isDigit = true ∧ ds ≠ [] ∧ (∀ c ∈ ds, c.isDigit = true)
         ∧ n = digitsToNat ds)
    ∧ (∀ (st : StreamEchoThread) (msg : String) (n : Nat),
       syncMatch msg = some n →
       st.step msg = .ok ({ last_sync_seq := (n : Int), interrupted := false }, [])) :=
  ⟨fun msg n => syncParse_eq_some_iff msg.toList n, step_of_syncMatch⟩

/-- Witness for the amended C4 theorem at a concrete marker message. -/
theorem sync_marker_pattern_witness :
    syncMatch "1 #~PTGHCI~SYNC~3~#" = some 3
    ∧ StreamEchoThread.step initListener "1 #~PTGHCI~SYNC~3~#"
      = .ok ({ last_sync_seq := 3, interrupted := false }, []) :=
  ⟨(sync_marker_pattern.1 "1 #~PTGHCI~SYNC~3~#" 3).mpr
     ⟨'1', ['3'], [], by decide, by decide, by decide, by decide, by decide⟩,
   sync_marker_pattern.2 initListener "1 #~PTGHCI~SYNC~3~#" 3 (by rfl)⟩

/-- C5: a non-suppressed content line is routed strictly by its selector —
`1` to the primary sink, `2` to the error sink — any other selector raises
the fatal `ValueError`, and the listener loop emits routed lines in arrival
order. -/
theorem stream_routing :
    (∀ (st : StreamEchoThread) (msg : String) (rest : List Char),
       st.interrupted = false → syncMatch msg = none → msg.toList = '1' :: rest →
       st.step msg = .ok (st, [Output.primary (String.mk (msg.toList.drop 2))]))
    ∧ (∀ (st : StreamEchoThread) (msg : String) (rest : List Char),
       st.interrupted = false → syncMatch msg = none → msg.toList = '2' :: rest →
       st.step msg = .ok (st, [Output.errOut (String.mk (msg.toList.drop 2))]))
    ∧ (∀ (st : StreamEchoThread) (msg : String) (c : Char) (rest : List Char),
       st.interrupted = false → syncMatch msg = none → msg.toList = c :: rest →
       c ≠ '1' → c ≠ '2' →
       st.step msg = .error ("Bad stream identifier.  Expected 1 or 2 but got "
                             ++ String.mk [c]))
    ∧ (∀ (st st1 st2 : StreamEchoThread) (m : String) (ms : List String)
         (out1 out2 : List Output),
       st.step m = .ok (st1, out1) → st1.run ms = .ok (st2, out2) →
       st.run (m :: ms) = .ok (st2, out1 ++ out2)) := by
  refine ⟨?_, ?_, ?_, ?_⟩
  · intro st msg rest hint hsync hl
    have hl2 : msg.data = '1' :: rest := hl
    simp [StreamEchoThread.step, hsync, hint, hl2]
  · intro st msg rest hint hsync hl
    have hl2 : msg.data = '2' :: rest := hl
    simp [StreamEchoThread.step, hsync, hint, hl2]
  · intro st msg c rest hint hsync hl hc1 hc2
    have hl2 : msg.data = c :: rest := hl
    simp [StreamEchoThread.step, hsync, hint, hl2, hc1, hc2]
  · intro st st1 st2 m ms out1 out2 h1 h2
    simp only [StreamEchoThread.run, h1, h2]

/-- Witness for C5 at concrete content lines. -/
theorem stream_routing_witness :
    StreamEchoThread.step initListener "1:out" = .ok (initListener, [Output.primary "out"])
    ∧ StreamEchoThread.step initListener "2:err" = .ok (initListener, [Output.errOut "err"])
    ∧ StreamEchoThread.step initListener "3:bad"
      = .error ("Bad stream identifier.  Expected 1 or 2 but got " ++ String.mk ['3'])
    ∧ initListener.run ["1:a", "2:b"]
      = .ok (initListener, [Output.primary "a"] ++ [Output.errOut "b"]) :=
  ⟨stream_routing.1 initListener "1:out" ":out".toList rfl (by rfl) (by rfl),
   stream_routing.2.1 initListener "2:err" ":err".toList rfl (by rfl) (by rfl),
   stream_routing.2.2.1 initListener "3:bad" '3' ":bad".toList rfl (by rfl) (by rfl)
     (by decide) (by decide),
   stream_routing.2.2.2 initListener initListener initListener "1:a" ["2:b"]
     [Output.primary "a"] [Output.errOut "b"] (by rfl) (by rfl)⟩

/-! ### Claims about the Command Client and Interrupt Coordinator -/

/-- C1: for an `exec_stream` reply with `success = true` carrying a sync
token, the client passes that token to `await_sync` — which returns only
once the listener cursor is at least the target — and then returns the
`Stream` response; for a reply with `success = false` it returns
`ErrorMessage(content)` without any sync wait. -/
theorem exec_stream_sync_correct :
    (∀ (events : List Ev) (acts : List Act) (m : Reply) (sv : Int),
       await_reply events = (acts, some (ReplyOutcome.reply m)) →
       m.tag = "ExecStreamResponse" → m.success = some true → m.syncVal = some sv →
       Engine.exec_stream events WaitOutcome.completed
         = (acts, some sv, some (ExecOutcome.result Response.stream)))
    ∧ (∀ (target : Int) (obs : List Int) (v : Int),
       StreamEchoThread.await_sync target obs = some v → target ≤ v)
    ∧ (∀ (events : List Ev) (acts : List Act) (m : Reply) (c : String) (w : WaitOutcome),
       await_reply events = (acts, some (ReplyOutcome.reply m)) →
       m.tag = "ExecStreamResponse" → m.success = some false → m.content = some c →
       Engine.exec_stream events w
         = (acts, none, some (ExecOutcome.result (Response.errorMessage c)))) := by
  refine ⟨?_, await_sync_ge, ?_⟩
  · intro events acts m sv h htag hsucc hsync
    simp [Engine.exec_stream, h, hsucc, hsync, responseFromReply, htag]
  · intro events acts m c w h htag hsucc hcont
    simp [Engine.exec_stream, h, hsucc, responseFromReply, htag, hcont]

/-- Witness for C1 at a concrete successful and a concrete failed reply. -/
theorem exec_stream_sync_correct_witness :
    Engine.exec_stream [Ev.msg sampleStreamOk] WaitOutcome.completed
      = ([], some 7, some (ExecOutcome.result Response.stream))
    ∧ (3 : Int) ≤ 9
    ∧ Engine.exec_stream [Ev.msg sampleStreamFail] WaitOutcome.completed
      = ([], none, some (ExecOutcome.result (Response.errorMessage "boom"))) :=
  ⟨exec_stream_sync_correct.1 [Ev.msg sampleStreamOk] [] sampleStreamOk 7
     rfl rfl rfl rfl,
   exec_stream_sync_correct.2.1 3 [9] 9 (by decide),
   exec_stream_sync_correct.2.2 [Ev.msg sampleStreamFail] [] sampleStreamFail "boom"
     WaitOutcome.completed rfl rfl rfl rfl⟩

/-- C6: a cancellation observed while polling for the reply triggers one
`send_interrupt` (control-channel interrupt plus listener suppression),
then a drain loop that re-sends the interrupt for each further cancellation
arriving before the acknowledgment message, and once the acknowledgment is
drained the original cancellation is re-raised to the caller. -/
theorem await_reply_cancel_protocol :
    ∀ (t1 t2 : List Ev) (m : Reply) (rest : List Ev),
      (∀ e ∈ t1, e = Ev.timeout) →
      (∀ e ∈ t2, e = Ev.timeout ∨ e = Ev.cancel) →
      await_reply (t1 ++ Ev.cancel :: (t2 ++ Ev.msg m :: rest))
        = (interruptActs (countCancels t2 + 1), some ReplyOutcome.cancelled) := by
  intro t1 t2 m rest h1 h2
  rw [await_reply_skip_timeouts t1 _ h1]
  simp only [await_reply, drainAck_msg t2 m rest h2, interruptActs, if_true]

/-- Witness for C6: one poll timeout, a cancellation, one further
cancellation before the acknowledgment arrives. -/
theorem await_reply_cancel_protocol_witness :
    await_reply ([Ev.timeout] ++ Ev.cancel :: ([Ev.cancel] ++ Ev.msg sampleAck :: []))
      = (interruptActs (countCancels [Ev.cancel] + 1), some ReplyOutcome.cancelled) :=
  await_reply_cancel_protocol [Ev.timeout] [Ev.cancel] sampleAck []
    (by decide) (by decide)

/-- C7: when the `await_sync` wait inside `exec_stream` is cancelled after
a successful reply, the method sends one interrupt (control channel plus
suppression) and still returns the `Stream` response built from the reply
already received, instead of propagating the cancellation. -/
theorem exec_stream_cancelled_wait :
    ∀ (events : List Ev) (acts : List Act) (m : Reply) (sv : Int),
      await_reply events = (acts, some (ReplyOutcome.reply m)) →
      m.tag = "ExecStreamResponse" → m.success = some true → m.syncVal = some sv →
      Engine.exec_stream events WaitOutcome.interrupted
        = (acts ++ [Act.ctrlInterrupt, Act.suppress], some sv,
           some (ExecOutcome.result Response.stream)) := by
  intro events acts m sv h htag hsucc hsync
  simp [Engine.exec_stream, h, hsucc, hsync, responseFromReply, htag]

/-- Witness for C7 at a concrete successful reply. -/
theorem exec_stream_cancelled_wait_witness :
    Engine.exec_stream [Ev.msg sampleStreamOk] WaitOutcome.interrupted
      = ([] ++ [Act.ctrlInterrupt, Act.suppress], some 7,
         some (ExecOutcome.result Response.stream)) :=
  exec_stream_cancelled_wait [Ev.msg sampleStreamOk] [] sampleStreamOk 7
    rfl rfl rfl rfl

/-- C8: `execute` maps a successful `ExecCaptureResponse` with content `c`
to `Value(c)`, a failed one with content `e` to `ErrorMessage(e)`, and a
reply with an unrecognized tag to the fatal `ValueError` protocol error. -/
theorem execute_reply_mapping :
    (∀ (events : List Ev) (acts : List Act) (m : Reply) (c : String),
       await_reply events = (acts, some (ReplyOutcome.reply m)) →
       m.tag = "ExecCaptureResponse" → m.success = some true → m.content = some c →
       Engine.execute events = (acts, some (ExecOutcome.result (Response.value c))))
    ∧ (∀ (events : List Ev) (acts : List Act) (m : Reply) (c : String),
       await_reply events = (acts, some (ReplyOutcome.reply m)) →
       m.tag = "ExecCaptureResponse" → m.success = some false → m.content = some c →
       Engine.execute events
         = (acts, some (ExecOutcome.result (Response.errorMessage c))))
    ∧ (∀ (events : List Ev) (acts : List Act) (m : Reply),
       await_reply events = (acts, some (ReplyOutcome.reply m)) →
       m.tag ≠ "ExecCaptureResponse" → m.tag ≠ "ExecStreamResponse" →
       Engine.execute events
         = (acts, some (ExecOutcome.protocolError
             ("Unexpected response type: " ++ m.tag)))) := by
  refine ⟨?_, ?_, ?_⟩
  · intro events acts m c h htag hsucc hcont
    simp [Engine.execute, h, responseFromReply, htag, hsucc, hcont]
  · intro events acts m c h htag hsucc hcont
    simp [Engine.execute, h, responseFromReply, htag, hsucc, hcont]
  · intro events acts m h htag1 htag2
    simp [Engine.execute, h, responseFromReply, htag1, htag2]

/-- Witness for C8 at the concrete stub replies given in the spec. -/
theorem execute_reply_mapping_witness :
    Engine.execute [Ev.msg sampleCaptureOk]
      = ([], some (ExecOutcome.result (Response.value "2")))
    ∧ Engine.execute [Ev.msg sampleCaptureFail]
      = ([], some (ExecOutcome.result (Response.errorMessage "parse error")))
    ∧ Engine.execute [Ev.msg sampleBadTag]
      = ([], some (ExecOutcome.protocolError ("Unexpected response type: " ++ "Bogus"))) :=
  ⟨execute_reply_mapping.1 [Ev.msg sampleCaptureOk] [] sampleCaptureOk "2"
     rfl rfl rfl rfl,
   execute_reply_mapping.2.1 [Ev.msg sampleCaptureFail] [] sampleCaptureFail "parse error"
     rfl rfl rfl rfl,
   execute_reply_mapping.2.2 [Ev.msg sampleBadTag] [] sampleBadTag rfl
     (by decide) (by decide)⟩

/-- C9: `get_completions` returns the pair `(startChars, candidates)` (in
reply order) when the reply is successful, and the absent result (`None`,
not an error) when `success` is false or missing. -/
theorem get_completions_mapping :
    (∀ (r : Reply) (sc : Int) (cs : List String),
       r.success = some true → r.startChars = some sc → r.candidates = some cs →
       Engine.get_completions r = .ok (some (sc, cs)))
    ∧ (∀ r : Reply, r.success = some false → Engine.get_completions r = .ok none)
    ∧ (∀ r : Reply, r.success = none → Engine.get_completions r = .ok none) := by
  refine ⟨?_, ?_, ?_⟩
  · intro r sc cs hsucc hsc hcs
    simp [Engine.get_completions, hsucc, hsc, hcs]
  · intro r hsucc
    simp [Engine.get_completions, hsucc]
  · intro r hsucc
    simp [Engine.get_completions, hsucc]

/-- Witness for C9 at the concrete stub replies given in the spec. -/
theorem get_completions_mapping_witness :
    Engine.get_completions sampleCompletion = .ok (some (3, ["bar", "baz"]))
    ∧ Engine.get_completions sampleStreamFail = .ok none
    ∧ Engine.get_completions sampleBadTag = .ok none :=
  ⟨get_completions_mapping.1 sampleCompletion 3 ["bar", "baz"] rfl rfl rfl,
   get_completions_mapping.2.1 sampleStreamFail rfl,
   get_completions_mapping.2.2 sampleBadTag rfl⟩

/-- C10: a single cancellation during the reply wait of `execute` sends the
control-channel interrupt twice before the cancellation reaches the caller:
once inside `_await_reply` (which drains the acknowledgment) and once more
in the handler of `execute` when the cancellation is re-raised through
it. -/
theorem execute_single_cancel_two_interrupts :
    ∀ (t1 : List Ev) (m : Reply) (rest : List Ev),
      (∀ e ∈ t1, e = Ev.timeout) →
      Engine.execute (t1 ++ Ev.cancel :: Ev.msg m :: rest)
        = (interruptActs 2, some ExecOutcome.cancelled)
      ∧ (Engine.execute (t1 ++ Ev.cancel :: Ev.msg m :: rest)).1.count
          Act.ctrlInterrupt = 2 := by
  intro t1 m rest h1
  have ha : await_reply (t1 ++ Ev.cancel :: Ev.msg m :: rest)
      = (interruptActs 1, some ReplyOutcome.cancelled) := by
    rw [await_reply_skip_timeouts t1 _ h1]
    simp [await_reply, drainAck, interruptActs]
  have hex : Engine.execute (t1 ++ Ev.cancel :: Ev.msg m :: rest)
      = (interruptActs 2, some ExecOutcome.cancelled) := by
    simp [Engine.execute, ha, interruptActs]
  refine ⟨hex, ?_⟩
  rw [hex]
  decide

/-- Witness for C10: one timeout, one cancellation, then the
acknowledgment. -/
theorem execute_single_cancel_two_interrupts_witness :
    Engine.execute ([Ev.timeout] ++ Ev.cancel :: Ev.msg sampleAck :: [])
      = (interruptActs 2, some ExecOutcome.cancelled)
    ∧ (Engine.execute ([Ev.timeout] ++ Ev.cancel :: Ev.msg sampleAck :: [])).1.count
        Act.ctrlInterrupt = 2 :=
  execute_single_cancel_two_interrupts [Ev.timeout] sampleAck [] (by decide)
